import Mathlib

/-!
# Fantasy Football Draft Board — verification of the backend core

A shallow embedding of the draft-board backend (`backend/models.py`,
`backend/main.py`) and proofs of the specified properties of its
draft/roster/budget consistency model.

The persistent store is modelled as an explicit state (`DBState`) holding
the two tables (players, teams) together with the store-assigned id
counters. Each HTTP handler of `main.py` becomes a pure function from the
pre-state to either an `HTTPError` (the handler raised `HTTPException`
before committing, so the transaction is discarded and the pre-state
survives unchanged) or the post-state paired with the handler's return
value. Python integers are `Int`; nullable columns are `Option`.

`projected_points` is a nullable Python float parsed from a CSV cell by
the builtin `float`. No arithmetic is ever performed on it in the
repository, so the embedding stores the accepted literal string instead of
a floating-point value, and models the builtin `float` applied to a string
by an executable recogniser of its grammar (`pyFloatAccepts`): optional
sign, then digits with an optional fractional part or a bare fractional
part, then an optional exponent. The `inf`/`nan` words and digit-grouping
underscores, which no draft-board input uses, are omitted from the model.
-/

/-- A row of `players`: the `Player` model of `models.py`. `team` is the
NFL team string; `fantasy_team_id` is the nullable foreign key into
`teams`. -/
structure Player where
  id : Nat
  name : String
  position : String
  team : String
  projected_points : Option String
  drafted : Bool
  draft_price : Option Int
  drafted_by : Option String
  fantasy_team_id : Option Nat
deriving Repr, DecidableEq

/-- A row of `teams`: the `Team` model of `models.py`. `spent` and
`remaining_budget` are derived, never stored. -/
structure Team where
  id : Nat
  name : String
  budget : Int
deriving Repr, DecidableEq

/-- The relational store: both tables plus the store-assigned primary-key
counters. -/
structure DBState where
  players : List Player
  teams : List Team
  nextPlayerId : Nat
  nextTeamId : Nat
deriving Repr, DecidableEq

/-- An `HTTPException(status_code, detail)` raised by a handler. -/
structure HTTPError where
  status : Nat
  detail : String
deriving Repr, DecidableEq

/-- `session.execute(select(Player).where(Player.id == player_id))` +
`scalar_one_or_none()`: the first (and, ids being primary keys, only)
player with the given id. -/
def findPlayer (s : DBState) (player_id : Nat) : Option Player :=
  s.players.find? (fun p => p.id == player_id)

/-- `select(Team).where(Team.id == team_id)` + `scalar_one_or_none()`. -/
def findTeam (s : DBState) (team_id : Nat) : Option Team :=
  s.teams.find? (fun t => t.id == team_id)

/-- Mutating the ORM object returned by a primary-key lookup: replace the
first row with the given id. -/
def replacePlayer : List Player → Nat → Player → List Player
  | [], _, _ => []
  | q :: rest, pid, p' =>
      if q.id == pid then p' :: rest else q :: replacePlayer rest pid p'

/-- `session.delete(team)` on the ORM object returned by a primary-key
lookup: remove the first row with the given id. -/
def eraseTeam : List Team → Nat → List Team
  | [], _ => []
  | t :: rest, tid => if t.id == tid then rest else t :: eraseTeam rest tid

/-- The reverse relationship `Team.players`: players whose
`fantasy_team_id` references this team. -/
def teamPlayers (s : DBState) (t : Team) : List Player :=
  s.players.filter (fun p => p.fantasy_team_id == some t.id)

/-! ## Budget accounting (`models.py`) -/

/-- `sum(p.draft_price or 0 for p in player_list)`, the body shared by
`Team.get_spent` and `Team.to_dict`. -/
def spentOf (player_list : List Player) : Int :=
  (player_list.map (fun p => p.draft_price.getD 0)).sum

/-- `Team.get_spent`, invoked with an explicit players list. -/
def Team.get_spent (_t : Team) (player_list : List Player) : Int :=
  spentOf player_list

/-- `Team.get_remaining_budget`. -/
def Team.get_remaining_budget (t : Team) (player_list : List Player) : Int :=
  t.budget - t.get_spent player_list

/-- The dictionary `Team.to_dict` builds (players list omitted: it is the
projection of `players_list` itself when `include_players` is set). -/
structure TeamDict where
  id : Nat
  name : String
  budget : Int
  spent : Int
  remaining_budget : Int
deriving Repr, DecidableEq

/-- `Team.to_dict` with the relationship loaded as `players_list`; the
`except` branch of the source is the `players_list = []` instance. -/
def Team.to_dict (t : Team) (players_list : List Player) : TeamDict :=
  let spent := spentOf players_list
  { id := t.id, name := t.name, budget := t.budget
    spent := spent, remaining_budget := t.budget - spent }

/-! ## Roster ingestion (`upload_players`, main.py lines 49–73)

A CSV row from `csv.DictReader` is a mapping from header name to cell
string; `row.get(k, d)` returns the stored value when the key is present
(even when that value is the empty string) and `d` otherwise. -/

/-- A parsed CSV row: header name to cell value. -/
def Row : Type := List (String × String)

/-- Python `row.get(k, d)`. -/
def pyGet (row : Row) (k : String) (d : String) : String :=
  match List.lookup k row with
  | some v => v
  | none => d

/-- Truthiness of `row.get(k)`: false for a missing key and for the empty
string. -/
def pyTruthy (row : Row) (k : String) : Bool :=
  match List.lookup k row with
  | some v => v ≠ ""
  | none => false

/-- Consume leading decimal digits, returning how many and the rest. -/
def eatDigits : List Char → Nat × List Char
  | [] => (0, [])
  | c :: cs =>
      if c.isDigit then
        let r := eatDigits cs
        (r.1 + 1, r.2)
      else (0, c :: cs)

/-- Accept an optional exponent part (`e`/`E`, optional sign, 1+ digits)
ending the literal. -/
def acceptExp : List Char → Bool
  | [] => true
  | 'e' :: cs =>
      let cs := match cs with
        | '+' :: r => r
        | '-' :: r => r
        | r => r
      let r := eatDigits cs
      0 < r.1 && r.2 = []
  | 'E' :: cs =>
      let cs := match cs with
        | '+' :: r => r
        | '-' :: r => r
        | r => r
      let r := eatDigits cs
      0 < r.1 && r.2 = []
  | _ => false

/-- Accept the unsigned mantissa: digits, optionally a point and more
digits, at least one digit overall, then an optional exponent. -/
def acceptMantissa (cs : List Char) : Bool :=
  let r1 := eatDigits cs
  match r1.2 with
  | '.' :: rest =>
      let r2 := eatDigits rest
      0 < r1.1 + r2.1 && acceptExp r2.2
  | _ => 0 < r1.1 && acceptExp r1.2

/-- Python's `str.strip()` on a character list: drop whitespace from both
ends. -/
def pyStrip (cs : List Char) : List Char :=
  ((cs.dropWhile Char.isWhitespace).reverse.dropWhile Char.isWhitespace).reverse

/-- Model of Python's builtin `float` on a string, as a recogniser:
whitespace is stripped, then an optional sign and a decimal literal with
optional fraction and exponent. `float("")`, `float(".")` and
`float("abc")` raise; `"340.5"`, `"1."`, `".5"`, `"2e3"` are accepted. -/
def pyFloatAccepts (s : String) : Bool :=
  let cs := pyStrip s.toList
  let cs := match cs with
    | '+' :: r => r
    | '-' :: r => r
    | r => r
  acceptMantissa cs

/-- `float(v)` for a cell string `v`: the accepted literal, or the raised
`ValueError`. -/
def pyFloat (v : String) : Except HTTPError String :=
  if pyFloatAccepts v then Except.ok v else Except.error ⟨500, "ValueError"⟩

/-- The `Player(...)` constructor fields of lines 64–66: each column is
read under the lower-snake name with the title-case name as fallback;
`pp` is the already-parsed `projected_points` value. -/
def rowPlayer (row : Row) (pid : Nat) (pp : Option String) : Player :=
  { id := pid
    name := pyGet row "name" (pyGet row "Name" "")
    position := pyGet row "position" (pyGet row "Position" "")
    team := pyGet row "team" (pyGet row "Team" "")
    projected_points := pp
    drafted := false
    draft_price := none
    drafted_by := none
    fantasy_team_id := none }

/-- The `Player(...)` constructor call of the upload loop (lines 63–68):
`projected_points` is `float(...)` of the value chosen with lower-snake
key precedence whenever either spelling holds a truthy value, else
`None`. A `ValueError` from `float` propagates. -/
def playerOfRow (row : Row) (pid : Nat) : Except HTTPError Player :=
  if pyTruthy row "projected_points" || pyTruthy row "Projected Points" then
    match pyFloat (pyGet row "projected_points" (pyGet row "Projected Points" "0")) with
    | Except.error e => Except.error e
    | Except.ok v => Except.ok (rowPlayer row pid (some v))
  else
    Except.ok (rowPlayer row pid none)

/-- The upload loop: build a `Player` per row, `session.add` each, count
them, commit at the end. An error anywhere aborts the request before the
commit, so nothing is persisted. Returns the post-state and the count in
the success message. -/
def uploadRows (s : DBState) : List Row → Except HTTPError (DBState × Nat)
  | [] => Except.ok (s, 0)
  | row :: rest =>
      match playerOfRow row s.nextPlayerId with
      | Except.error e => Except.error e
      | Except.ok p =>
          match uploadRows
              { s with players := s.players ++ [p], nextPlayerId := s.nextPlayerId + 1 } rest with
          | Except.error e => Except.error e
          | Except.ok r => Except.ok (r.1, r.2 + 1)

/-- `POST /api/players/upload` after the `.csv` filename check: ingest the
parsed rows. -/
def upload_players (rows : List Row) (s : DBState) : Except HTTPError (DBState × Nat) :=
  uploadRows s rows

/-! ## Player endpoints (`main.py`) -/

/-- The three assignments of lines 97–99: set `drafted`, `draft_price`,
`drafted_by` on the (possibly re-associated) player. -/
def draftUpdate (draft_price : Int) (drafted_by : String) (player : Player) : Player :=
  { player with drafted := true
                draft_price := some draft_price
                drafted_by := some drafted_by }

/-- The committed store after the three assignments: the found player row
replaced by its `draftUpdate`. -/
def draftResult (s : DBState) (player_id : Nat) (draft_price : Int)
    (drafted_by : String) (player : Player) : DBState :=
  { s with players := replacePlayer s.players player_id (draftUpdate draft_price drafted_by player) }

/-- The unconditional tail of the draft handler (lines 97–102): apply
`draftUpdate`, commit, return the projection. -/
def draftCommit (s : DBState) (player_id : Nat) (draft_price : Int)
    (drafted_by : String) (player : Player) : Except HTTPError (DBState × Player) :=
  Except.ok (draftResult s player_id draft_price drafted_by player,
    draftUpdate draft_price drafted_by player)

/-- `PATCH /api/players/{player_id}/draft` (lines 75–102): resolve the
player (404 if absent); if `team_id` was passed, resolve the team (404 if
absent) and set the association; then set `drafted`, `draft_price`,
`drafted_by`; commit; return the updated player projection. -/
def draft_player (player_id : Nat) (draft_price : Int) (drafted_by : String)
    (team_id : Option Nat) (s : DBState) :
    Except HTTPError (DBState × Player) :=
  match findPlayer s player_id with
  | none => Except.error ⟨404, "Player not found"⟩
  | some player =>
      match team_id with
      | none => draftCommit s player_id draft_price drafted_by player
      | some tid =>
          match findTeam s tid with
          | none => Except.error ⟨404, "Team not found"⟩
          | some _ =>
              draftCommit s player_id draft_price drafted_by
                { player with fantasy_team_id := some tid }

/-- `DELETE /api/players` (lines 104–112): delete every player row. -/
def clear_players (s : DBState) : DBState × String :=
  ({ s with players := [] }, "All players cleared")

/-! ## Team endpoints (`main.py`) -/

/-- `POST /api/teams` (lines 141–156): 400 when a team with the same name
exists, else persist with the given name and budget. -/
def create_team (name : String) (budget : Int) (s : DBState) :
    Except HTTPError (DBState × Team) :=
  if s.teams.any (fun t => t.name == name) then
    Except.error ⟨400, "Team name already exists"⟩
  else
    let t : Team := { id := s.nextTeamId, name := name, budget := budget }
    Except.ok ({ s with teams := s.teams ++ [t], nextTeamId := s.nextTeamId + 1 }, t)

/-- `POST /api/teams/initialize` (lines 159–184): 400 when any team
exists, else create "Team 1".."Team 12" with budget 200. -/
def initialize_teams (s : DBState) : Except HTTPError (DBState × List Team) :=
  if s.teams.isEmpty then
    let fresh := (List.range 12).map
      (fun i => ({ id := s.nextTeamId + i, name := "Team " ++ toString (i + 1), budget := 200 } : Team))
    Except.ok ({ s with teams := s.teams ++ fresh, nextTeamId := s.nextTeamId + 12 }, fresh)
  else
    Except.error ⟨400, "Teams already initialized. Clear teams first."⟩

/-- Mutating the ORM team returned by a primary-key lookup. -/
def replaceTeam : List Team → Nat → Team → List Team
  | [], _, _ => []
  | t :: rest, tid, t' =>
      if t.id == tid then t' :: rest else t :: replaceTeam rest tid t'

/-- The unconditional tail of the team-update handler (lines 209–215):
overwrite the budget when one was supplied, commit, return the team. -/
def updateCommit (s : DBState) (team_id : Nat) (team : Team)
    (new_budget : Option Int) : Except HTTPError (DBState × Team) :=
  let team :=
    match new_budget with
    | none => team
    | some b => { team with budget := b }
  Except.ok ({ s with teams := replaceTeam s.teams team_id team }, team)

/-- `PATCH /api/teams/{team_id}` (lines 187–215): 404 when absent; when a
name is supplied, 400 if a *different* team already holds it, else rename;
when a budget is supplied, overwrite it; commit and return the team. -/
def update_team (team_id : Nat) (new_name : Option String) (new_budget : Option Int)
    (s : DBState) : Except HTTPError (DBState × Team) :=
  match findTeam s team_id with
  | none => Except.error ⟨404, "Team not found"⟩
  | some team =>
      match new_name with
      | none => updateCommit s team_id team new_budget
      | some nm =>
          if s.teams.any (fun t => t.name == nm && t.id != team_id) then
            Except.error ⟨400, "Team name already exists"⟩
          else
            updateCommit s team_id { team with name := nm } new_budget

/-- `DELETE /api/teams/{team_id}` (lines 218–238): 404 when absent; 400
when the team still has associated players; else delete it. -/
def delete_team (team_id : Nat) (s : DBState) :
    Except HTTPError (DBState × String) :=
  match findTeam s team_id with
  | none => Except.error ⟨404, "Team not found"⟩
  | some team =>
      if (teamPlayers s team).isEmpty then
        Except.ok ({ s with teams := eraseTeam s.teams team_id },
          "Team " ++ team.name ++ " deleted")
      else
        Except.error ⟨400, "Cannot delete team with drafted players. Undraft players first."⟩

/-- `DELETE /api/teams` (lines 241–257): null the association of every
player that has one, then delete every team, in one commit. -/
def clear_teams (s : DBState) : DBState × String :=
  ({ s with
      players := s.players.map
        (fun p => if p.fantasy_team_id.isSome then { p with fantasy_team_id := none } else p)
      teams := [] },
    "All teams cleared")

/-! ## Shared infrastructure for the theorems -/

/-- Whether a handler raised (the transaction was rolled back). -/
def isError {α : Type} : Except HTTPError α → Bool
  | Except.error _ => true
  | Except.ok _ => false

/-- The state the store is left in after a draft request: the committed
post-state on success, the untouched pre-state when the handler raised. -/
def applyDraft (player_id : Nat) (draft_price : Int) (drafted_by : String)
    (team_id : Option Nat) (s : DBState) : DBState :=
  match draft_player player_id draft_price drafted_by team_id s with
  | Except.ok r => r.1
  | Except.error _ => s

/-- The state the store is left in after an upload request. -/
def applyUpload (rows : List Row) (s : DBState) : DBState :=
  match upload_players rows s with
  | Except.ok r => r.1
  | Except.error _ => s

/-- The resolvability precondition the draft handler checks for an
optional `team_id`. -/
def teamResolves (s : DBState) : Option Nat → Prop
  | none => True
  | some tid => (findTeam s tid).isSome = true

/-- A player's foreign key, when set, references some team of the list. -/
def playerRefOk (teams : List Team) (p : Player) : Bool :=
  match p.fantasy_team_id with
  | none => true
  | some tid => teams.any (fun t => t.id == tid)

/-- Referential integrity of the store: every set `fantasy_team_id`
references an existing team. -/
def teamRefOk (s : DBState) : Bool :=
  s.players.all (playerRefOk s.teams)

/-- No two teams share a name (the store's unique constraint on
`Team.name`). -/
def nodupTeamNames : List Team → Bool
  | [] => true
  | t :: rest => !(rest.any (fun u => u.name == t.name)) && nodupTeamNames rest

theorem find?_replacePlayer {l : List Player} {pid : Nat} (p' : Player)
    (hid : p'.id = pid) (h : (l.find? (fun q => q.id == pid)).isSome = true) :
    (replacePlayer l pid p').find? (fun q => q.id == pid) = some p' := by
  induction l with
  | nil => simp [List.find?] at h
  | cons q rest ih =>
      by_cases hq : (q.id == pid) = true
      · simp [replacePlayer, hq, List.find?, hid]
      · have hq' : (q.id == pid) = false := by simpa using hq
        rw [show replacePlayer (q :: rest) pid p' = q :: replacePlayer rest pid p' from by
          simp [replacePlayer, hq']]
        simp only [List.find?, hq'] at h ⊢
        exact ih h

/-- A concrete store used to exhibit the preconditions of the theorems:
one undrafted player (id 1) and two teams (ids 9 and 10). -/
def exPlayer : Player :=
  { id := 1, name := "Josh Allen", position := "QB", team := "BUF"
    projected_points := some "340.5", drafted := false
    draft_price := none, drafted_by := none, fantasy_team_id := none }

def exTeamA : Team := { id := 9, name := "Team A", budget := 200 }

def exTeamB : Team := { id := 10, name := "Team B", budget := 150 }

def exState : DBState :=
  { players := [exPlayer], teams := [exTeamA, exTeamB]
    nextPlayerId := 2, nextTeamId := 11 }

/-! ## C2 — budget accounting -/

/-- C2: `spent` is the sum of `draft_price` over the players, null counted
as 0 — zero for the empty list, and adding a player adds its price;
`remaining_budget` is the budget minus `spent`; and the `to_dict`
projection reports exactly these values. -/
theorem spent_remaining_accounting (t : Team) (p : Player) (ps : List Player) :
    t.get_spent [] = 0 ∧
    t.get_spent (p :: ps) = p.draft_price.getD 0 + t.get_spent ps ∧
    t.get_remaining_budget ps = t.budget - t.get_spent ps ∧
    t.get_remaining_budget [] = t.budget ∧
    (t.to_dict ps).spent = t.get_spent ps ∧
    (t.to_dict ps).remaining_budget = t.budget - t.get_spent ps ∧
    (t.to_dict ps).budget = t.budget := by
  refine ⟨rfl, ?_, rfl, ?_, rfl, rfl, rfl⟩
  · simp [Team.get_spent, spentOf]
  · simp [Team.get_remaining_budget, Team.get_spent, spentOf]

/-! ## C9 — bulk team clear -/

theorem clearAssoc_eq (p : Player) :
    (if p.fantasy_team_id.isSome then { p with fantasy_team_id := none } else p)
      = { p with fantasy_team_id := none } := by
  cases p with
  | mk i n pos tm pp d dp db ft => cases ft <;> simp

/-- C9: for every starting state, the bulk team-clear succeeds, leaves
zero teams, nulls every player's team association, and deletes no player
record (every player survives with all other fields intact). -/
theorem clear_teams_clears_everything (s : DBState) :
    (clear_teams s).1.teams = [] ∧
    (clear_teams s).1.players
      = s.players.map (fun p => { p with fantasy_team_id := none }) ∧
    (clear_teams s).1.players.length = s.players.length ∧
    (clear_teams s).2 = "All teams cleared" := by
  refine ⟨rfl, ?_, by simp [clear_teams], rfl⟩
  simp only [clear_teams]
  exact List.map_congr_left (fun p _ => clearAssoc_eq p)

/-! ## C10 — bulk player clear -/

/-- C10: the bulk player-clear deletes every player unconditionally and
leaves the teams table untouched, so every team's projection afterwards
reports spent 0 and remaining budget equal to its budget. -/
theorem clear_players_frame (s : DBState) :
    (clear_players s).1.players = [] ∧
    (clear_players s).1.teams = s.teams ∧
    (∀ t, t ∈ (clear_players s).1.teams →
      (t.to_dict (teamPlayers (clear_players s).1 t)).spent = 0 ∧
      (t.to_dict (teamPlayers (clear_players s).1 t)).remaining_budget = t.budget) := by
  refine ⟨rfl, rfl, fun t _ => ?_⟩
  simp [clear_players, teamPlayers, Team.to_dict, spentOf]

/-! ## C1 — draft success -/

theorem id_of_findPlayer {s : DBState} {player_id : Nat} {p : Player}
    (hp : findPlayer s player_id = some p) : p.id = player_id := by
  simp only [findPlayer] at hp
  simpa using List.find?_some hp

theorem draft_player_eq_commit_team {s : DBState} {player_id : Nat} (price : Int)
    (label : String) {tid : Nat} {p : Player} {t : Team}
    (hp : findPlayer s player_id = some p) (ht : findTeam s tid = some t) :
    draft_player player_id price label (some tid) s =
      draftCommit s player_id price label { p with fantasy_team_id := some tid } := by
  simp [draft_player, hp, ht]

theorem draft_player_eq_commit_noteam {s : DBState} {player_id : Nat} (price : Int)
    (label : String) {p : Player} (hp : findPlayer s player_id = some p) :
    draft_player player_id price label none s =
      draftCommit s player_id price label p := by
  simp [draft_player, hp]

/-- The conclusion of the draft-success property: the call returns `ok`,
and the returned projection — which is also the player now stored under
`player_id` — carries `drafted = true`, the given price and label, the
given team association (or the old one when `team_id` was omitted), and
every other field unchanged; the teams table is untouched. -/
def DraftOutcome (player_id : Nat) (price : Int) (label : String)
    (team_id : Option Nat) (s : DBState) (p : Player) : Prop :=
  ∃ s' p', draft_player player_id price label team_id s = Except.ok (s', p') ∧
    p'.drafted = true ∧ p'.draft_price = some price ∧ p'.drafted_by = some label ∧
    (∀ tid, team_id = some tid → p'.fantasy_team_id = some tid) ∧
    (team_id = none → p'.fantasy_team_id = p.fantasy_team_id) ∧
    p'.id = p.id ∧ p'.name = p.name ∧ p'.position = p.position ∧
    p'.team = p.team ∧ p'.projected_points = p.projected_points ∧
    findPlayer s' player_id = some p' ∧ s'.teams = s.teams

/-- C1: for every existing player, every integer price and every label,
the draft succeeds; afterwards the player is drafted at that price with
that label, the team association is `team_id` when one was given (and
resolves) and untouched when omitted, and the updated projection is
returned. -/
theorem draft_player_success (s : DBState) (player_id : Nat) (price : Int)
    (label : String) (team_id : Option Nat) (p : Player)
    (hp : findPlayer s player_id = some p) (ht : teamResolves s team_id) :
    DraftOutcome player_id price label team_id s p := by
  have hpid : p.id = player_id := id_of_findPlayer hp
  have hsome : (s.players.find? (fun q => q.id == player_id)).isSome = true := by
    simp only [findPlayer] at hp
    simp [hp]
  cases team_id with
  | none =>
      refine ⟨draftResult s player_id price label p, draftUpdate price label p,
        draft_player_eq_commit_noteam price label hp,
        rfl, rfl, rfl, ?_, ?_, rfl, rfl, rfl, rfl, rfl, ?_, rfl⟩
      · intro _ h
        cases h
      · intro _
        rfl
      · exact find?_replacePlayer _ hpid hsome
  | some tid =>
      obtain ⟨t, ht⟩ := Option.isSome_iff_exists.mp ht
      refine ⟨draftResult s player_id price label { p with fantasy_team_id := some tid },
        draftUpdate price label { p with fantasy_team_id := some tid },
        draft_player_eq_commit_team price label hp ht,
        rfl, rfl, rfl, ?_, ?_, rfl, rfl, rfl, rfl, rfl, ?_, rfl⟩
      · intro tid' h
        cases h
        rfl
      · intro h
        cases h
      · exact find?_replacePlayer _ hpid hsome

theorem draft_player_success_witness :
    findPlayer exState 1 = some exPlayer ∧ teamResolves exState (some 9) ∧
    DraftOutcome 1 50 "Team A" (some 9) exState exPlayer :=
  ⟨rfl, rfl, draft_player_success exState 1 50 "Team A" (some 9) exPlayer rfl rfl⟩

/-! ## C4 — draft failure modes -/

/-- C4: the draft raises exactly when the player id does not resolve, or a
team id was supplied and does not resolve; every raise is a 404 with the
corresponding detail, and leaves the store exactly as it was. -/
theorem draft_player_error_characterization (player_id : Nat) (price : Int)
    (label : String) (team_id : Option Nat) (s : DBState) :
    (isError (draft_player player_id price label team_id s) = true ↔
      findPlayer s player_id = none ∨
        ∃ tid, team_id = some tid ∧ findTeam s tid = none) ∧
    (match draft_player player_id price label team_id s with
     | Except.error e =>
        applyDraft player_id price label team_id s = s ∧ e.status = 404 ∧
          (e.detail = "Player not found" ∨ e.detail = "Team not found")
     | Except.ok _ => True) := by
  cases hp : findPlayer s player_id with
  | none =>
      cases team_id <;>
        simp [draft_player, hp, isError, applyDraft]
  | some p =>
      cases team_id with
      | none => simp [draft_player, hp, isError, draftCommit]
      | some tid =>
          cases ht : findTeam s tid <;>
            simp [draft_player, hp, ht, isError, applyDraft, draftCommit]

/-! ## C5 — drafting twice: latest values win -/

/-- The conclusion of the re-draft property: the second draft of an
already-drafted player succeeds and exactly its price, label and team
association are stored afterwards. -/
def RedraftOutcome (player_id : Nat) (price2 : Int) (label2 : String)
    (tid2 : Nat) (s1 : DBState) : Prop :=
  ∃ s2 p2, draft_player player_id price2 label2 (some tid2) s1 = Except.ok (s2, p2) ∧
    p2.drafted = true ∧ p2.draft_price = some price2 ∧
    p2.drafted_by = some label2 ∧ p2.fantasy_team_id = some tid2 ∧
    findPlayer s2 player_id = some p2

/-- C5: drafting a player that is already drafted is not rejected — after
a first draft (price1/label1/tid1) the second draft (price2/label2/tid2)
succeeds and overwrites, leaving exactly the latest price, label and team
association in effect. -/
theorem draft_twice_latest_wins (s : DBState) (player_id : Nat)
    (price1 price2 : Int) (label1 label2 : String) (tid1 tid2 : Nat)
    (hp : (findPlayer s player_id).isSome = true)
    (ht1 : (findTeam s tid1).isSome = true)
    (ht2 : (findTeam s tid2).isSome = true) :
    ∃ s1 p1, draft_player player_id price1 label1 (some tid1) s = Except.ok (s1, p1) ∧
      p1.drafted = true ∧ findPlayer s1 player_id = some p1 ∧
      RedraftOutcome player_id price2 label2 tid2 s1 := by
  obtain ⟨p, hp⟩ := Option.isSome_iff_exists.mp hp
  obtain ⟨t1, ht1⟩ := Option.isSome_iff_exists.mp ht1
  obtain ⟨t2, ht2'⟩ := Option.isSome_iff_exists.mp ht2
  have hpid : p.id = player_id := id_of_findPlayer hp
  have hsome : (s.players.find? (fun q => q.id == player_id)).isSome = true := by
    simp only [findPlayer] at hp
    simp [hp]
  refine ⟨draftResult s player_id price1 label1 { p with fantasy_team_id := some tid1 },
    draftUpdate price1 label1 { p with fantasy_team_id := some tid1 },
    draft_player_eq_commit_team price1 label1 hp ht1, rfl, ?_, ?_⟩
  · exact find?_replacePlayer _ hpid hsome
  · have hfind1 :
        findPlayer (draftResult s player_id price1 label1 { p with fantasy_team_id := some tid1 })
            player_id
          = some (draftUpdate price1 label1 { p with fantasy_team_id := some tid1 }) :=
      find?_replacePlayer _ hpid hsome
    have hsome1 :
        ((draftResult s player_id price1 label1 { p with fantasy_team_id := some tid1 }).players.find?
          (fun q => q.id == player_id)).isSome = true := by
      simp only [findPlayer] at hfind1
      simp [hfind1]
    have ht2s1 :
        findTeam (draftResult s player_id price1 label1 { p with fantasy_team_id := some tid1 })
          tid2 = some t2 := ht2'
    exact ⟨_, _, draft_player_eq_commit_team price2 label2 hfind1 ht2s1,
      rfl, rfl, rfl, rfl, find?_replacePlayer _ hpid hsome1⟩

theorem draft_twice_latest_wins_witness :
    (findPlayer exState 1).isSome = true ∧ (findTeam exState 9).isSome = true ∧
    (findTeam exState 10).isSome = true ∧
    (∃ s1 p1, draft_player 1 50 "Team A" (some 9) exState = Except.ok (s1, p1) ∧
      p1.drafted = true ∧ findPlayer s1 1 = some p1 ∧
      RedraftOutcome 1 65 "Team B" 10 s1) :=
  ⟨rfl, rfl, rfl, draft_twice_latest_wins exState 1 50 65 "Team A" "Team B" 9 10 rfl rfl rfl⟩

/-! ## C3 — referential integrity of `fantasy_team_id` -/

theorem id_of_findTeam {s : DBState} {team_id : Nat} {t : Team}
    (ht : findTeam s team_id = some t) : t.id = team_id := by
  simp only [findTeam] at ht
  simpa using List.find?_some ht

theorem playerRefOk_none {teams : List Team} {p : Player}
    (h : p.fantasy_team_id = none) : playerRefOk teams p = true := by
  simp [playerRefOk, h]

theorem playerRefOk_some {teams : List Team} {p : Player} {tid : Nat}
    (h : p.fantasy_team_id = some tid) :
    playerRefOk teams p = teams.any (fun u => u.id == tid) := by
  simp [playerRefOk, h]

theorem playerRefOk_append {teams ts : List Team} {p : Player}
    (h : playerRefOk teams p = true) : playerRefOk (teams ++ ts) p = true := by
  cases hf : p.fantasy_team_id with
  | none => exact playerRefOk_none hf
  | some tid =>
      rw [playerRefOk_some hf] at h ⊢
      simp [List.any_append, h]

theorem findTeam_any {s : DBState} {tid : Nat} {t : Team}
    (h : findTeam s tid = some t) :
    s.teams.any (fun u => u.id == tid) = true := by
  simp only [findTeam] at h
  have hmem : t ∈ s.teams := List.mem_of_find?_eq_some h
  have hpred := List.find?_some h
  rw [List.any_eq_true]
  exact ⟨t, hmem, by simpa using hpred⟩

theorem all_replacePlayer {l : List Player} {pid : Nat} {p' : Player} {f : Player → Bool}
    (h : l.all f = true) (hp' : f p' = true) :
    (replacePlayer l pid p').all f = true := by
  induction l with
  | nil => simp [replacePlayer]
  | cons q rest ih =>
      simp only [List.all_cons, Bool.and_eq_true] at h
      by_cases hq : (q.id == pid) = true
      · rw [show replacePlayer (q :: rest) pid p' = p' :: rest from by simp [replacePlayer, hq]]
        simp [List.all_cons, hp', h.2]
      · have hq' : (q.id == pid) = false := by simpa using hq
        rw [show replacePlayer (q :: rest) pid p' = q :: replacePlayer rest pid p' from by
          simp [replacePlayer, hq']]
        simp [List.all_cons, h.1, ih h.2]

theorem any_id_replaceTeam {l : List Team} {tid x : Nat} {t' : Team} (hid : t'.id = tid)
    (h : l.any (fun u => u.id == x) = true) :
    (replaceTeam l tid t').any (fun u => u.id == x) = true := by
  induction l with
  | nil => simp at h
  | cons q rest ih =>
      by_cases hq : (q.id == tid) = true
      · rw [show replaceTeam (q :: rest) tid t' = t' :: rest from by simp [replaceTeam, hq]]
        simp only [List.any_cons, Bool.or_eq_true] at h ⊢
        cases h with
        | inl hqx =>
            left
            have h1 : q.id = tid := by simpa using hq
            have h2 : q.id = x := by simpa using hqx
            simp [hid, ← h1, h2]
        | inr hr => exact Or.inr hr
      · have hq' : (q.id == tid) = false := by simpa using hq
        rw [show replaceTeam (q :: rest) tid t' = q :: replaceTeam rest tid t' from by
          simp [replaceTeam, hq']]
        simp only [List.any_cons, Bool.or_eq_true] at h ⊢
        cases h with
        | inl hqx => exact Or.inl hqx
        | inr hr => exact Or.inr (ih hr)

theorem any_id_eraseTeam {l : List Team} {tid x : Nat} (hx : (x == tid) = false)
    (h : l.any (fun u => u.id == x) = true) :
    (eraseTeam l tid).any (fun u => u.id == x) = true := by
  induction l with
  | nil => simp at h
  | cons q rest ih =>
      by_cases hq : (q.id == tid) = true
      · rw [show eraseTeam (q :: rest) tid = rest from by simp [eraseTeam, hq]]
        simp only [List.any_cons, Bool.or_eq_true] at h
        cases h with
        | inl hqx =>
            have h2 : q.id = x := by simpa using hqx
            subst h2
            have h1 : q.id = tid := by simpa using hq
            rw [h1] at hx
            simp at hx
        | inr hr => exact hr
      · have hq' : (q.id == tid) = false := by simpa using hq
        rw [show eraseTeam (q :: rest) tid = q :: eraseTeam rest tid from by
          simp [eraseTeam, hq']]
        simp only [List.any_cons, Bool.or_eq_true] at h ⊢
        cases h with
        | inl hqx => exact Or.inl hqx
        | inr hr => exact Or.inr (ih hr)

theorem playerOfRow_unassigned {row : Row} {pid : Nat} {p : Player}
    (h : playerOfRow row pid = Except.ok p) : p.fantasy_team_id = none := by
  unfold playerOfRow at h
  split at h
  · split at h
    · cases h
    · cases h
      rfl
  · cases h
    rfl

theorem uploadRows_preserves :
    ∀ (rows : List Row) (s : DBState), teamRefOk s = true →
      ∀ r, uploadRows s rows = Except.ok r → teamRefOk r.1 = true := by
  intro rows
  induction rows with
  | nil =>
      intro s hs r heq
      cases heq
      exact hs
  | cons row rest ih =>
      intro s hs r heq
      simp only [uploadRows] at heq
      split at heq
      · cases heq
      · rename_i p hrow
        split at heq
        · cases heq
        · rename_i r' hrec
          cases heq
          have hs' : teamRefOk
              { s with players := s.players ++ [p], nextPlayerId := s.nextPlayerId + 1 }
                = true := by
            unfold teamRefOk at hs ⊢
            simp only [List.all_append, Bool.and_eq_true]
            exact ⟨hs, by simp [playerRefOk_none (playerOfRow_unassigned hrow)]⟩
          exact ih _ hs' r' hrec

/-- The conclusion of the referential-integrity claim: from a state where
every set `fantasy_team_id` references an existing team, every mutating
endpoint that returns successfully leaves a state where that is still so. -/
def PreservesRefIntegrity (s : DBState) : Prop :=
  (∀ rows r, upload_players rows s = Except.ok r → teamRefOk r.1 = true) ∧
  (∀ player_id price label team_id r,
      draft_player player_id price label team_id s = Except.ok r → teamRefOk r.1 = true) ∧
  teamRefOk (clear_players s).1 = true ∧
  (∀ nm b r, create_team nm b s = Except.ok r → teamRefOk r.1 = true) ∧
  (∀ r, initialize_teams s = Except.ok r → teamRefOk r.1 = true) ∧
  (∀ team_id nm b r, update_team team_id nm b s = Except.ok r → teamRefOk r.1 = true) ∧
  (∀ team_id r, delete_team team_id s = Except.ok r → teamRefOk r.1 = true) ∧
  teamRefOk (clear_teams s).1 = true

/-- C3: every operation preserves the invariant that a non-null
`fantasy_team_id` references an existing team — drafting associates only
after the team is found, single team deletion is refused while a player
references the team, and bulk team deletion nulls every association
before removing the teams. -/
theorem ops_preserve_team_refs (s : DBState) (h : teamRefOk s = true) :
    PreservesRefIntegrity s := by
  have hall : ∀ p ∈ s.players, playerRefOk s.teams p = true := by
    rw [teamRefOk, List.all_eq_true] at h
    exact h
  refine ⟨?_, ?_, ?_, ?_, ?_, ?_, ?_, ?_⟩
  · intro rows r heq
    exact uploadRows_preserves rows s h r heq
  · intro player_id price label team_id r heq
    cases hp : findPlayer s player_id with
    | none => simp [draft_player, hp] at heq
    | some p =>
        have hpmem : p ∈ s.players := by
          simp only [findPlayer] at hp
          exact List.mem_of_find?_eq_some hp
        cases team_id with
        | none =>
            rw [draft_player_eq_commit_noteam price label hp] at heq
            simp only [draftCommit] at heq
            cases heq
            unfold teamRefOk draftResult
            refine all_replacePlayer h ?_
            cases hf : p.fantasy_team_id with
            | none => exact playerRefOk_none hf
            | some x =>
                rw [playerRefOk_some (show (draftUpdate price label p).fantasy_team_id
                  = some x from hf)]
                have := hall p hpmem
                rwa [playerRefOk_some hf] at this
        | some tid =>
            cases ht : findTeam s tid with
            | none => simp [draft_player, hp, ht] at heq
            | some t =>
                rw [draft_player_eq_commit_team price label hp ht] at heq
                simp only [draftCommit] at heq
                cases heq
                unfold teamRefOk draftResult
                refine all_replacePlayer h ?_
                rw [playerRefOk_some (show (draftUpdate price label
                  { p with fantasy_team_id := some tid }).fantasy_team_id = some tid from rfl)]
                exact findTeam_any ht
  · rfl
  · intro nm b r heq
    unfold create_team at heq
    split at heq
    · cases heq
    · cases heq
      unfold teamRefOk
      rw [List.all_eq_true]
      intro p hp
      exact playerRefOk_append (hall p hp)
  · intro r heq
    unfold initialize_teams at heq
    split at heq
    · cases heq
      unfold teamRefOk
      rw [List.all_eq_true]
      intro p hp
      exact playerRefOk_append (hall p hp)
    · cases heq
  · intro team_id nm b r heq
    cases hft : findTeam s team_id with
    | none => simp [update_team, hft] at heq
    | some team =>
        have hid : team.id = team_id := id_of_findTeam hft
        have hcommit : ∀ (tm : Team), tm.id = team_id →
            ∀ r', updateCommit s team_id tm b = Except.ok r' → teamRefOk r'.1 = true := by
          intro tm htm r' heq'
          simp only [updateCommit] at heq'
          cases heq'
          unfold teamRefOk
          rw [List.all_eq_true]
          intro p hp
          cases hf : p.fantasy_team_id with
          | none => exact playerRefOk_none hf
          | some x =>
              rw [playerRefOk_some hf]
              have hx : s.teams.any (fun u => u.id == x) = true := by
                have := hall p hp
                rwa [playerRefOk_some hf] at this
              refine any_id_replaceTeam ?_ hx
              cases b with
              | none => exact htm
              | some bb => exact htm
        cases nm with
        | none =>
            simp only [update_team, hft] at heq
            exact hcommit team hid r heq
        | some nm =>
            simp only [update_team, hft] at heq
            split at heq
            · cases heq
            · exact hcommit { team with name := nm } hid r heq
  · intro team_id r heq
    cases hft : findTeam s team_id with
    | none => simp [delete_team, hft] at heq
    | some team =>
        have hid : team.id = team_id := id_of_findTeam hft
        simp only [delete_team, hft] at heq
        split at heq
        · rename_i hempty
          cases heq
          unfold teamRefOk
          rw [List.all_eq_true]
          intro p hp
          have hne : (p.fantasy_team_id == some team.id) = false := by
            rw [List.isEmpty_iff] at hempty
            unfold teamPlayers at hempty
            have := List.filter_eq_nil_iff.mp hempty p hp
            simpa using this
          cases hf : p.fantasy_team_id with
          | none => exact playerRefOk_none hf
          | some x =>
              rw [playerRefOk_some hf]
              have hx : (x == team_id) = false := by
                rw [hf, hid] at hne
                simpa using hne
              have hany : s.teams.any (fun u => u.id == x) = true := by
                have := hall p hp
                rwa [playerRefOk_some hf] at this
              exact any_id_eraseTeam hx hany
        · cases heq
  · unfold teamRefOk clear_teams
    rw [List.all_eq_true]
    intro q hq
    simp only [List.mem_map] at hq
    obtain ⟨p, _, rfl⟩ := hq
    rw [clearAssoc_eq]
    exact playerRefOk_none rfl

theorem ops_preserve_team_refs_witness :
    teamRefOk exState = true ∧ PreservesRefIntegrity exState :=
  ⟨rfl, ops_preserve_team_refs exState rfl⟩

/-! ## C8 — team-name uniqueness on create and rename -/

theorem beq_name_symm_false {a b : String} (h : (a == b) = false) : (b == a) = false := by
  have : a ≠ b := by simpa using h
  simpa using this.symm

/-- Under the store's unique-name constraint, no *other* team (different
id) holds the name of the team a primary-key lookup found. -/
theorem no_other_team_same_name {l : List Team} {tid : Nat} {t : Team}
    (hnodup : nodupTeamNames l = true) (hfind : l.find? (fun u => u.id == tid) = some t) :
    l.any (fun u => u.name == t.name && u.id != tid) = false := by
  induction l with
  | nil => cases hfind
  | cons q rest ih =>
      simp only [nodupTeamNames, Bool.and_eq_true, Bool.not_eq_true'] at hnodup
      by_cases hq : (q.id == tid) = true
      · have ht : q = t := by
          simp only [List.find?, hq] at hfind
          exact Option.some.inj hfind
        subst ht
        rw [List.any_cons]
        have hhead : (q.name == q.name && q.id != tid) = false := by
          have hne : (q.id != tid) = false := by
            simp only [bne, hq, Bool.not_true]
          rw [hne, Bool.and_false]
        have htail : rest.any (fun u => u.name == q.name && u.id != tid) = false := by
          rw [List.any_eq_false]
          intro u hu
          have hun : (u.name == q.name) = false := by
            have := List.any_eq_false.mp hnodup.1 u hu
            simpa using this
          simp [hun]
        rw [hhead, htail]
        rfl
      · have hq' : (q.id == tid) = false := by simpa using hq
        simp only [List.find?, hq'] at hfind
        have htmem : t ∈ rest := List.mem_of_find?_eq_some hfind
        have htname : (t.name == q.name) = false := by
          have := List.any_eq_false.mp hnodup.1 t htmem
          simpa using this
        rw [List.any_cons]
        have hhead : (q.name == t.name && q.id != tid) = false := by
          rw [beq_name_symm_false htname]
          rfl
        rw [hhead, ih hnodup.2 hfind]
        rfl

/-- The conclusion of the name-uniqueness claim: creating fails exactly
when some team already holds the exact name, renaming (of a resolvable
team) fails exactly when a *different* team already holds the target
name, every such failure is the 400 duplicate-name error, and renaming a
team to its own current name succeeds. -/
def TeamNameUniqueness (s : DBState) (nm_new : String) (budget : Int)
    (tid : Nat) (t : Team) : Prop :=
  (isError (create_team nm_new budget s) = true ↔
    s.teams.any (fun u => u.name == nm_new) = true) ∧
  (∀ e, create_team nm_new budget s = Except.error e →
    e = ⟨400, "Team name already exists"⟩) ∧
  (isError (update_team tid (some nm_new) none s) = true ↔
    s.teams.any (fun u => u.name == nm_new && u.id != tid) = true) ∧
  (∀ e, update_team tid (some nm_new) none s = Except.error e →
    e = ⟨400, "Team name already exists"⟩) ∧
  (∃ r, update_team tid (some t.name) none s = Except.ok r)

/-- C8: team-name uniqueness is a Conflict-style client error with
character-for-character matching: create fails exactly on an existing
identical name, rename fails exactly when another team (another id) holds
the target name, and self-rename succeeds. -/
theorem team_name_conflict_rules (s : DBState) (nm_new : String) (budget : Int)
    (tid : Nat) (t : Team)
    (hfind : findTeam s tid = some t) (hnodup : nodupTeamNames s.teams = true) :
    TeamNameUniqueness s nm_new budget tid t := by
  refine ⟨?_, ?_, ?_, ?_, ?_⟩
  · by_cases hdup : s.teams.any (fun u => u.name == nm_new) = true
    · simp [create_team, hdup, isError]
    · have hdup' : s.teams.any (fun u => u.name == nm_new) = false := by
        simpa using hdup
      simp [create_team, hdup', isError]
  · intro e heq
    unfold create_team at heq
    split at heq
    · exact (Except.error.inj heq).symm
    · cases heq
  · by_cases hdup : s.teams.any (fun u => u.name == nm_new && u.id != tid) = true
    · simp [update_team, hfind, hdup, isError]
    · have hdup' : s.teams.any (fun u => u.name == nm_new && u.id != tid) = false := by
        simpa using hdup
      simp [update_team, hfind, hdup', updateCommit, isError]
  · intro e heq
    simp only [update_team, hfind] at heq
    split at heq
    · exact (Except.error.inj heq).symm
    · simp only [updateCommit] at heq
      cases heq
  · have hnone : s.teams.any (fun u => u.name == t.name && u.id != tid) = false :=
      no_other_team_same_name hnodup hfind
    exact ⟨({ s with teams := replaceTeam s.teams tid { t with name := t.name } }, { t with name := t.name }), by simp [update_team, hfind, hnone, updateCommit]⟩

theorem team_name_conflict_rules_witness :
    findTeam exState 9 = some exTeamA ∧ nodupTeamNames exState.teams = true ∧
    TeamNameUniqueness exState "Team C" 100 9 exTeamA :=
  ⟨rfl, rfl, team_name_conflict_rules exState "Team C" 100 9 exTeamA rfl rfl⟩

/-! ## C6 — column-name recognition in roster ingestion -/

/-- C6 as stated is false at a concrete input: the claim promises
case-insensitive recognition, but the ingestion of lines 64–67 only reads
the two exact spellings. A row carrying the all-uppercase variant "NAME"
yields an empty name, while the canonical "name" yields the value. -/
theorem upload_casing_counterexample :
    playerOfRow [("NAME", "Josh Allen")] 1
      = Except.ok (⟨1, "", "", "", none, false, none, none, none⟩ : Player) ∧
    playerOfRow [("name", "Josh Allen")] 1
      = Except.ok (⟨1, "Josh Allen", "", "", none, false, none, none, none⟩ : Player) ∧
    ("" : String) ≠ "Josh Allen" :=
  ⟨rfl, rfl, by decide⟩

theorem playerOfRow_of_not_truthy {row : Row} {pid : Nat}
    (h1 : pyTruthy row "projected_points" = false)
    (h2 : pyTruthy row "Projected Points" = false) :
    playerOfRow row pid = Except.ok (rowPlayer row pid none) := by
  simp [playerOfRow, h1, h2]

theorem playerOfRow_of_truthy_accepts {row : Row} {pid : Nat}
    (hcond : (pyTruthy row "projected_points" || pyTruthy row "Projected Points") = true)
    (hacc : pyFloatAccepts (pyGet row "projected_points" (pyGet row "Projected Points" "0")) = true) :
    playerOfRow row pid = Except.ok
      (rowPlayer row pid (some (pyGet row "projected_points" (pyGet row "Projected Points" "0")))) := by
  simp [playerOfRow, hcond, pyFloat, hacc]

theorem playerOfRow_of_truthy_rejects {row : Row} {pid : Nat}
    (hcond : (pyTruthy row "projected_points" || pyTruthy row "Projected Points") = true)
    (hacc : pyFloatAccepts (pyGet row "projected_points" (pyGet row "Projected Points" "0")) = false) :
    playerOfRow row pid = Except.error ⟨500, "ValueError"⟩ := by
  simp [playerOfRow, hcond, pyFloat, hacc]

/-- The amended recognition contract, column by column. For each of the
four columns: the field is populated from the lower-snake spelling alone
and from the title-case spelling alone, the lower-snake value wins when a
row carries both spellings, and a key in any other casing (all-uppercase
here) is not recognized — the field falls back to its default. A full row
written in either single convention populates all four semantic fields
identically. `v` is the cell value used where the `projected_points`
column must actually parse (the theorem assumes it non-empty and
float-parseable); `w` is an arbitrary second value. -/
def TwoConventionSpec (pid : Nat) (n pos tm pts v w : String) : Prop :=
  (playerOfRow [("name", n), ("position", pos), ("team", tm), ("projected_points", pts)] pid
    = playerOfRow [("Name", n), ("Position", pos), ("Team", tm), ("Projected Points", pts)] pid) ∧
  ((playerOfRow [("name", v)] pid).map (fun p => p.name) = Except.ok v ∧
   (playerOfRow [("Name", w)] pid).map (fun p => p.name) = Except.ok w ∧
   (playerOfRow [("name", v), ("Name", w)] pid).map (fun p => p.name) = Except.ok v ∧
   (playerOfRow [("NAME", v), ("Name", w)] pid).map (fun p => p.name) = Except.ok w ∧
   (playerOfRow [("NAME", v)] pid).map (fun p => p.name) = Except.ok "") ∧
  ((playerOfRow [("position", v)] pid).map (fun p => p.position) = Except.ok v ∧
   (playerOfRow [("Position", w)] pid).map (fun p => p.position) = Except.ok w ∧
   (playerOfRow [("position", v), ("Position", w)] pid).map (fun p => p.position) = Except.ok v ∧
   (playerOfRow [("POSITION", v), ("Position", w)] pid).map (fun p => p.position) = Except.ok w ∧
   (playerOfRow [("POSITION", v)] pid).map (fun p => p.position) = Except.ok "") ∧
  ((playerOfRow [("team", v)] pid).map (fun p => p.team) = Except.ok v ∧
   (playerOfRow [("Team", w)] pid).map (fun p => p.team) = Except.ok w ∧
   (playerOfRow [("team", v), ("Team", w)] pid).map (fun p => p.team) = Except.ok v ∧
   (playerOfRow [("TEAM", v), ("Team", w)] pid).map (fun p => p.team) = Except.ok w ∧
   (playerOfRow [("TEAM", v)] pid).map (fun p => p.team) = Except.ok "") ∧
  ((playerOfRow [("projected_points", v)] pid).map (fun p => p.projected_points)
      = Except.ok (some v) ∧
   (playerOfRow [("Projected Points", v)] pid).map (fun p => p.projected_points)
      = Except.ok (some v) ∧
   (playerOfRow [("projected_points", v), ("Projected Points", w)] pid).map
      (fun p => p.projected_points) = Except.ok (some v) ∧
   (playerOfRow [("PROJECTED_POINTS", v)] pid).map (fun p => p.projected_points)
      = Except.ok none)

/-- C6 amended: each column is recognized under exactly two spellings —
the lower-snake and the title-case convention, not arbitrary casings. A
row written entirely in either single convention populates the same
semantic fields; when a row carries both spellings the lower-snake value
wins; a key in any other casing is not recognized and the field falls
back to its default — for every one of the four columns. -/
theorem upload_two_conventions (pid : Nat) (n pos tm pts v w : String)
    (hv : v ≠ "") (hacc : pyFloatAccepts v = true) :
    TwoConventionSpec pid n pos tm pts v w := by
  refine ⟨?_, ⟨rfl, rfl, rfl, rfl, rfl⟩, ⟨rfl, rfl, rfl, rfl, rfl⟩,
    ⟨rfl, rfl, rfl, rfl, rfl⟩, ?_, ?_, ?_, rfl⟩
  · cases hb : pyTruthy
        [("name", n), ("position", pos), ("team", tm), ("projected_points", pts)]
        "projected_points" with
    | false =>
        have h12 : pyTruthy [("name", n), ("position", pos), ("team", tm), ("projected_points", pts)] "Projected Points" = false := rfl
        have h21 : pyTruthy [("Name", n), ("Position", pos), ("Team", tm), ("Projected Points", pts)] "projected_points" = false := rfl
        have h22 : pyTruthy [("Name", n), ("Position", pos), ("Team", tm), ("Projected Points", pts)] "Projected Points" = false := hb
        rw [playerOfRow_of_not_truthy hb h12, playerOfRow_of_not_truthy h21 h22]
        rfl
    | true =>
        have hc1 : (pyTruthy [("name", n), ("position", pos), ("team", tm), ("projected_points", pts)] "projected_points"
            || pyTruthy [("name", n), ("position", pos), ("team", tm), ("projected_points", pts)] "Projected Points") = true := by
          rw [hb]
          rfl
        have hb2 : pyTruthy [("Name", n), ("Position", pos), ("Team", tm), ("Projected Points", pts)] "Projected Points" = true := hb
        have hc2 : (pyTruthy [("Name", n), ("Position", pos), ("Team", tm), ("Projected Points", pts)] "projected_points"
            || pyTruthy [("Name", n), ("Position", pos), ("Team", tm), ("Projected Points", pts)] "Projected Points") = true := by
          rw [hb2]
          rfl
        cases hacc2 : pyFloatAccepts pts with
        | true =>
            rw [playerOfRow_of_truthy_accepts hc1 hacc2,
              playerOfRow_of_truthy_accepts hc2 hacc2]
            rfl
        | false =>
            rw [playerOfRow_of_truthy_rejects hc1 hacc2,
              playerOfRow_of_truthy_rejects hc2 hacc2]
  · have hb : pyTruthy [("projected_points", v)] "projected_points" = true :=
      decide_eq_true hv
    have hc : (pyTruthy [("projected_points", v)] "projected_points"
        || pyTruthy [("projected_points", v)] "Projected Points") = true := by
      rw [hb]
      rfl
    rw [playerOfRow_of_truthy_accepts hc hacc]
    rfl
  · have hb : pyTruthy [("Projected Points", v)] "Projected Points" = true :=
      decide_eq_true hv
    have hc : (pyTruthy [("Projected Points", v)] "projected_points"
        || pyTruthy [("Projected Points", v)] "Projected Points") = true := by
      rw [hb]
      rfl
    rw [playerOfRow_of_truthy_accepts hc hacc]
    rfl
  · have hb : pyTruthy [("projected_points", v), ("Projected Points", w)] "projected_points" = true :=
      decide_eq_true hv
    have hc : (pyTruthy [("projected_points", v), ("Projected Points", w)] "projected_points"
        || pyTruthy [("projected_points", v), ("Projected Points", w)] "Projected Points") = true := by
      rw [hb]
      rfl
    rw [playerOfRow_of_truthy_accepts hc hacc]
    rfl

theorem upload_two_conventions_witness :
    ("340.5" : String) ≠ "" ∧ pyFloatAccepts "340.5" = true ∧
    TwoConventionSpec 3 "Josh Allen" "QB" "BUF" "220.0" "340.5" "99.9" :=
  ⟨by decide, rfl,
    upload_two_conventions 3 "Josh Allen" "QB" "BUF" "220.0" "340.5" "99.9" (by decide) rfl⟩

/-! ## C7 — parsing of `projected_points` and all-or-nothing upload -/

/-- C7 as stated is false at a concrete input: in the row
`projected_points="" , Projected Points="5.0"` a non-empty value exists
under the title-case convention and parses as a float, so the claim
predicts success with 5.0 — but line 67 feeds `float` the *lower-snake*
value (empty, because that key is present), which raises, so the whole
upload fails and persists nothing. -/
theorem projected_points_mixed_counterexample :
    pyTruthy [("projected_points", ""), ("Projected Points", "5.0")] "Projected Points"
      = true ∧
    pyFloatAccepts "5.0" = true ∧
    playerOfRow [("projected_points", ""), ("Projected Points", "5.0")] 1
      = Except.error ⟨500, "ValueError"⟩ ∧
    upload_players [[("projected_points", ""), ("Projected Points", "5.0")]]
        { players := [], teams := [], nextPlayerId := 1, nextTeamId := 1 }
      = Except.error ⟨500, "ValueError"⟩ :=
  ⟨rfl, rfl, rfl, rfl⟩

/-- The amended parsing contract for a row's `projected_points`: when
neither spelling holds a truthy value it is null; otherwise the value
chosen with lower-snake *key* precedence is fed to `float` — success
stores exactly that value, failure errors the row. -/
def ProjectedPointsSpec (row : Row) (pid : Nat) : Prop :=
  (pyTruthy row "projected_points" = false → pyTruthy row "Projected Points" = false →
    playerOfRow row pid = Except.ok (rowPlayer row pid none) ∧
      (rowPlayer row pid none).projected_points = none) ∧
  ((pyTruthy row "projected_points" || pyTruthy row "Projected Points") = true →
    (pyFloatAccepts (pyGet row "projected_points" (pyGet row "Projected Points" "0")) = true →
      playerOfRow row pid = Except.ok
          (rowPlayer row pid (some (pyGet row "projected_points" (pyGet row "Projected Points" "0")))) ∧
        (rowPlayer row pid (some (pyGet row "projected_points" (pyGet row "Projected Points" "0")))).projected_points
          = some (pyGet row "projected_points" (pyGet row "Projected Points" "0"))) ∧
    (pyFloatAccepts (pyGet row "projected_points" (pyGet row "Projected Points" "0")) = false →
      playerOfRow row pid = Except.error ⟨500, "ValueError"⟩))

/-- C7 amended: `projected_points` is parsed exactly when a truthy value
exists under either spelling, but the value parsed is chosen with
lower-snake *key* precedence (the lower-snake value is fed to `float`
whenever that key is present, even when it is empty while the title-case
value is non-empty); a parse failure errors the whole upload, which is
all-or-nothing, so a failed upload leaves the store unchanged. -/
theorem projected_points_parse_spec (row : Row) (pid : Nat) (rows : List Row) (s : DBState) :
    ProjectedPointsSpec row pid ∧
    (∀ e, upload_players rows s = Except.error e → applyUpload rows s = s) := by
  constructor
  · refine ⟨?_, ?_⟩
    · intro h1 h2
      refine ⟨?_, rfl⟩
      simp [playerOfRow, h1, h2]
    · intro hcond
      constructor
      · intro hacc
        refine ⟨?_, rfl⟩
        simp [playerOfRow, hcond, pyFloat, hacc]
      · intro hacc
        simp [playerOfRow, hcond, pyFloat, hacc]
  · intro e heq
    unfold applyUpload
    rw [heq]

theorem projected_points_parse_spec_witness :
    (pyTruthy [("projected_points", "340.5")] "projected_points"
      || pyTruthy [("projected_points", "340.5")] "Projected Points") = true ∧
    pyFloatAccepts (pyGet [("projected_points", "340.5")] "projected_points"
      (pyGet [("projected_points", "340.5")] "Projected Points" "0")) = true ∧
    playerOfRow [("projected_points", "340.5")] 7
      = Except.ok (rowPlayer [("projected_points", "340.5")] 7 (some (pyGet [("projected_points", "340.5")] "projected_points" (pyGet [("projected_points", "340.5")] "Projected Points" "0")))) :=
  ⟨rfl, rfl,
    (((projected_points_parse_spec [("projected_points", "340.5")] 7 []
      { players := [], teams := [], nextPlayerId := 0, nextTeamId := 0 }).1.2 rfl).1 rfl).1⟩
